import Mathlib

/-
Verification of the analytical core of the offer-diagnosis / loyalty dashboard
(src/app.py).  The pandas pipeline is shallowly embedded: dataframes become
lists of records, monetary amounts become rationals, dates become integers
(day ordinals, matching the day-granularity comparisons in the source), and
the IEEE outcomes of dividing by a zero total (NaN and the infinities) are
made explicit through the PShare type.  Group-by aggregation is rendered as
the list of distinct keys paired with fold results over the matching rows.
-/

namespace App

/-- Record of the analysis layer: one row of the master table as consumed by
the filtering, qualifier, retention and Pareto computations (columns VentaID,
ClienteID, ProductoID, Fecha, ValorVenta, NombreProducto, Nombre, Segmento,
Ciudad of df_maestro). -/
structure Rec where
  ventaId : String
  clienteId : String
  productoId : String
  fecha : Int
  valorVenta : ℚ
  nombreProducto : String
  nombre : String
  segmento : String
  ciudad : String
deriving DecidableEq, Repr

/-- Main-period filter (src/app.py lines 137-148): date between start and end,
product in the offer selection, city and segment in the ad-hoc selections. -/
def v_period (m : List Rec) (startDate endDate : Int)
    (offerCodes ciudades segmentos : List String) : List Rec :=
  m.filter (fun r => decide (startDate ≤ r.fecha ∧ r.fecha ≤ endDate ∧
    r.productoId ∈ offerCodes ∧ r.ciudad ∈ ciudades ∧ r.segmento ∈ segmentos))

/-- Row of the transaction-level aggregation trans_offer (lines 154-159). -/
structure TransRow where
  ventaId : String
  clienteId : String
  fecha : Int
  ventaOferta : ℚ
  itemsOferta : Nat
deriving DecidableEq, Repr

/-- Aggregation of the period records to transaction level (groupby VentaID,
first ClienteID, first Fecha, sum ValorVenta, count of lines; lines 154-159). -/
def trans_offer (v : List Rec) : List TransRow :=
  ((v.map Rec.ventaId).dedup).map (fun vid =>
    let grp := v.filter (fun r => decide (r.ventaId = vid))
    { ventaId := vid
      clienteId := (grp.map Rec.clienteId).headI
      fecha := (grp.map Rec.fecha).headI
      ventaOferta := (grp.map Rec.valorVenta).sum
      itemsOferta := grp.length })

/-- Transactions meeting the minimum-amount threshold (line 162). -/
def qualifying_trans (v : List Rec) (minAmount : ℚ) : List TransRow :=
  (trans_offer v).filter (fun t => decide (minAmount ≤ t.ventaOferta))

/-- Distinct customer ids over the qualifying transactions (lines 163, 216). -/
def clientes_qual_actual (v : List Rec) (minAmount : ℚ) : List String :=
  ((qualifying_trans v minAmount).map TransRow.clienteId).dedup

/-- Total offer revenue of a record set (line 166 and line 221). -/
def venta_total (v : List Rec) : ℚ := (v.map Rec.valorVenta).sum

/-- Comparative-period subset (lines 203-206): the master table filtered on
the comparative date range and offer membership only. -/
def v_compar (m : List Rec) (comparStart comparEnd : Int)
    (offerCodes : List String) : List Rec :=
  m.filter (fun r => decide (comparStart ≤ r.fecha ∧ r.fecha ≤ comparEnd ∧
    r.productoId ∈ offerCodes))

/-- Per-customer revenue sums in the comparative period (lines 209-211). -/
def clients_prev_sum (vc : List Rec) : List (String × ℚ) :=
  ((vc.map Rec.clienteId).dedup).map (fun cid =>
    (cid, ((vc.filter (fun r => decide (r.clienteId = cid))).map Rec.valorVenta).sum))

/-- Customers whose comparative-period sum meets the comparative threshold
(line 213). -/
def clients_with_prev_qual (vc : List Rec) (comparMin : ℚ) : List (String × ℚ) :=
  (clients_prev_sum vc).filter (fun p => decide (comparMin ≤ p.2))

/-- Distinct qualifying customer ids of the comparative period (line 217). -/
def clientes_qual_previo (vc : List Rec) (comparMin : ℚ) : List String :=
  ((clients_with_prev_qual vc comparMin).map Prod.fst).dedup

/-- Retained customers (line 218): intersection of the current and previous
qualifying customer-id sets. -/
def fidelizados (actual previo : List String) : List String :=
  actual.filter (fun c => previo.contains c)

/-- Reported revenue variation (lines 223-227): either the sentinel N/A or a
signed percentage. -/
inductive Variacion where
  | na
  | pct (q : ℚ)
deriving DecidableEq, Repr

/-- Revenue variation of the main period against the comparative period
(lines 223-227): the sentinel when the comparative total is zero, otherwise
the relative difference in percent. -/
def variacion (ventaTotalMain ventaComparTotal : ℚ) : Variacion :=
  if ventaComparTotal = 0 then Variacion.na
  else Variacion.pct ((ventaTotalMain - ventaComparTotal) / ventaComparTotal * 100)

/-- Value of the cumulative-share column: a rational when the division is by a
nonzero total, and the IEEE artifacts NaN, or a signed infinity, when the
grand total is zero (the division at line 294 is not guarded). -/
inductive PShare where
  | val (q : ℚ)
  | nan
  | pinf
  | ninf
deriving DecidableEq, Repr

/-- Division of a cumulative sum by the grand total with the IEEE outcomes of
dividing by zero made explicit (line 294). -/
def qdivF (c t : ℚ) : PShare :=
  if t = 0 then (if c = 0 then PShare.nan else if 0 < c then PShare.pinf else PShare.ninf)
  else PShare.val (c / t)

/-- Comparison of a share against the 0.8 cutoff as the float comparison of
line 300 behaves: false on NaN and plus infinity, true on minus infinity. -/
def leq08 : PShare → Bool
  | PShare.val q => decide (q ≤ 0.8)
  | PShare.nan => false
  | PShare.pinf => false
  | PShare.ninf => true

/-- Ordering of share values used to state monotonicity of the cumulative
share sequence: only actual numbers are comparable. -/
def pshareLeb : PShare → PShare → Bool
  | PShare.val a, PShare.val b => decide (a ≤ b)
  | _, _ => false

/-- Propositional form of the share ordering. -/
def pshareLe (a b : PShare) : Prop := pshareLeb a b = true

instance : DecidableRel pshareLe := fun a b => by
  unfold pshareLe
  infer_instance

/-- Running sums of a list of rationals, starting from an accumulator. -/
def cumsumAux (acc : ℚ) : List ℚ → List ℚ
  | [] => []
  | x :: xs => (acc + x) :: cumsumAux (acc + x) xs

/-- Cumulative sums of a list of rationals (the cumsum of line 292). -/
def cumsum (l : List ℚ) : List ℚ := cumsumAux 0 l

/-- Insertion step of the descending sort by the rational component. -/
def insertDesc {κ : Type} (x : κ × ℚ) : List (κ × ℚ) → List (κ × ℚ)
  | [] => [x]
  | y :: ys => if y.2 < x.2 then x :: y :: ys else y :: insertDesc x ys

/-- Descending sort by the rational component (sort_values ascending false). -/
def sortDesc {κ : Type} : List (κ × ℚ) → List (κ × ℚ)
  | [] => []
  | x :: xs => insertDesc x (sortDesc xs)

/-- Group-by with summed values: the list of distinct keys, each paired with
the sum of the values of the rows carrying that key. -/
def groupSumBy {α κ : Type} [DecidableEq κ] (key : α → κ) (val : α → ℚ)
    (l : List α) : List (κ × ℚ) :=
  ((l.map key).dedup).map (fun k =>
    (k, ((l.filter (fun a => decide (key a = k))).map val).sum))

/-- Grouping key of the Pareto detail rows: ProductoID, NombreProducto,
ClienteID, Nombre (line 283). -/
def detKey (r : Rec) : String × String × String × String :=
  (r.productoId, r.nombreProducto, r.clienteId, r.nombre)

/-- Pareto detail rows (lines 283-285): grouped by product and customer with
summed amount, sorted descending by the summed amount. -/
def pareto_detalle (v : List Rec) : List ((String × String × String × String) × ℚ) :=
  sortDesc (groupSumBy detKey Rec.valorVenta v)

/-- Product-level Pareto totals (lines 288-290): the detail rows grouped by
product with summed amount, sorted descending. -/
def pareto_productos (v : List Rec) : List ((String × String) × ℚ) :=
  sortDesc (groupSumBy (fun d => (d.1.1, d.1.2.1)) Prod.snd (pareto_detalle v))

/-- Cumulative-share column of the product-level table (lines 292-294):
cumulative sums of the product totals divided by the grand total. -/
def acumulado_col (v : List Rec) : List PShare :=
  let ps := pareto_productos v
  let total := (ps.map Prod.snd).sum
  (cumsum (ps.map Prod.snd)).map (fun c => qdivF c total)

/-- Product-level table restricted to ProductoID and the cumulative share,
as selected for the merge of line 297. -/
def pareto_prod_acum (v : List Rec) : List (String × PShare) :=
  ((pareto_productos v).zip (acumulado_col v)).map (fun p => (p.1.1.1, p.2))

/-- Left merge of the detail rows with the product shares on ProductoID
(line 297); an unmatched detail row receives NaN. -/
def pareto_df (v : List Rec) :
    List ((String × String × String × String) × ℚ × PShare) :=
  (pareto_detalle v).flatMap (fun d =>
    match (pareto_prod_acum v).filter (fun p => decide (p.1 = d.1.1)) with
    | [] => [(d.1, d.2, PShare.nan)]
    | ms => ms.map (fun p => (d.1, d.2, p.2)))

/-- Cutoff table of line 300: the merged detail rows whose attached cumulative
share passes the 0.8 comparison. -/
def pareto_display (v : List Rec) :
    List ((String × String × String × String) × ℚ × PShare) :=
  (pareto_df v).filter (fun row => leq08 row.2.2)

/-- Share of a product as recorded in the product-level table: the share of
the first row with the given ProductoID, NaN when there is none. -/
def prodShare (v : List Rec) (pid : String) : PShare :=
  match (pareto_prod_acum v).filter (fun p => decide (p.1 = pid)) with
  | [] => PShare.nan
  | p :: _ => p.2

end App

namespace Load

/-- Raw sale line (Ventas.csv after the date parse of line 40): a column that
failed to parse, or was missing, is none. -/
structure Venta where
  ventaId : Option String
  clienteId : Option String
  productoId : Option String
  negocioId : Option String
  fecha : Option Int
  valorVenta : ℚ
deriving DecidableEq, Repr

/-- Raw product row (Productos.csv, columns selected at line 45). -/
structure Producto where
  productoId : Option String
  categoria : Option String
  nombreProducto : Option String
deriving DecidableEq, Repr

/-- Raw customer row (Clientes.csv, columns selected at line 49). -/
structure Cliente where
  clienteId : Option String
  nombre : Option String
  segmento : Option String
  ciudad : Option String
deriving DecidableEq, Repr

/-- Raw store row (Negocios.csv, columns selected at line 53). -/
structure Negocio where
  negocioId : Option String
  nombreTienda : Option String
deriving DecidableEq, Repr

/-- Row of the master table after the three left-joins of lines 45-54. -/
structure MasterRec where
  ventaId : Option String
  clienteId : Option String
  productoId : Option String
  negocioId : Option String
  fecha : Option Int
  valorVenta : ℚ
  categoria : Option String
  nombreProducto : Option String
  nombre : Option String
  segmento : Option String
  ciudad : Option String
  nombreTienda : Option String
deriving DecidableEq, Repr

/-- Left join: each left row paired with every matching right row, or with
none when no right row matches (the how left merges of lines 45-54). -/
def leftJoin {α β : Type} (l : List α) (r : List β) (matchRow : α → β → Bool) :
    List (α × Option β) :=
  l.flatMap (fun a =>
    match r.filter (matchRow a) with
    | [] => [(a, none)]
    | bs => bs.map (fun b => (a, some b)))

/-- Assembly of a master row from a sale line and its optional dimension
matches. -/
def mkMaster (s : Venta) (p : Option Producto) (c : Option Cliente)
    (n : Option Negocio) : MasterRec :=
  { ventaId := s.ventaId
    clienteId := s.clienteId
    productoId := s.productoId
    negocioId := s.negocioId
    fecha := s.fecha
    valorVenta := s.valorVenta
    categoria := p.bind Producto.categoria
    nombreProducto := p.bind Producto.nombreProducto
    nombre := c.bind Cliente.nombre
    segmento := c.bind Cliente.segmento
    ciudad := c.bind Cliente.ciudad
    nombreTienda := n.bind Negocio.nombreTienda }

/-- Master table before the null-drop: sales left-joined to products on
ProductoID, then to customers on ClienteID, then to stores on NegocioID
(lines 45-54). -/
def df_maestro_raw (ventas : List Venta) (productos : List Producto)
    (clientes : List Cliente) (negocios : List Negocio) : List MasterRec :=
  let m1 := leftJoin ventas productos
    (fun s p => decide (p.productoId = s.productoId))
  let m2 := leftJoin m1 clientes
    (fun sp c => decide (c.clienteId = sp.1.clienteId))
  let m3 := leftJoin m2 negocios
    (fun spc n => decide (n.negocioId = spc.1.1.negocioId))
  m3.map (fun t => mkMaster t.1.1.1 t.1.1.2 t.1.2 t.2)

/-- Predicate of the null-drop of line 57: the essential columns Fecha,
ClienteID and VentaID are present. -/
def essentialsPresent (fecha : Option Int) (clienteId ventaId : Option String) :
    Bool :=
  fecha.isSome && clienteId.isSome && ventaId.isSome

/-- Load-and-model step (lines 40-57): build the master table and drop the
rows missing Fecha, ClienteID or VentaID. -/
def load_and_model_data (ventas : List Venta) (productos : List Producto)
    (clientes : List Cliente) (negocios : List Negocio) : List MasterRec :=
  (df_maestro_raw ventas productos clientes negocios).filter
    (fun r => essentialsPresent r.fecha r.clienteId r.ventaId)

end Load

namespace App

/-- Name consistency of a record set: the product name is determined by the
product id.  It holds for every master table built from a products table with
unique ids, because the name column is then a left-join lookup on the id. -/
def nombreConsistente (v : List Rec) : Prop :=
  ∀ r ∈ v, ∀ r' ∈ v, r.productoId = r'.productoId → r.nombreProducto = r'.nombreProducto

/-- First line of the end-to-end qualifier scenario: sale 1, customer A,
product P1, amount 40000, day 5. -/
def recC1a : Rec :=
  { ventaId := "1", clienteId := "A", productoId := "P1", fecha := 5,
    valorVenta := 40000, nombreProducto := "NP1", nombre := "Ana",
    segmento := "S", ciudad := "C" }

/-- Second line of the end-to-end qualifier scenario: sale 1, customer A,
product P2, amount 20000, day 5. -/
def recC1b : Rec :=
  { ventaId := "1", clienteId := "A", productoId := "P2", fecha := 5,
    valorVenta := 20000, nombreProducto := "NP2", nombre := "Ana",
    segmento := "S", ciudad := "C" }

/-- Period records of the end-to-end qualifier scenario. -/
def vC1 : List Rec := [recC1a, recC1b]

/-- Expected aggregated transaction of the qualifier scenario. -/
def tC1 : TransRow :=
  { ventaId := "1", clienteId := "A", fecha := 5, ventaOferta := 60000,
    itemsOferta := 2 }

/-- First record of the Pareto boundary scenario: product P1 with total 800. -/
def recC3a : Rec :=
  { ventaId := "1", clienteId := "A", productoId := "P1", fecha := 5,
    valorVenta := 800, nombreProducto := "NP1", nombre := "Ana",
    segmento := "S", ciudad := "C" }

/-- Second record of the Pareto boundary scenario: product P2 with total 200. -/
def recC3b : Rec :=
  { ventaId := "2", clienteId := "B", productoId := "P2", fecha := 5,
    valorVenta := 200, nombreProducto := "NP2", nombre := "Bea",
    segmento := "S", ciudad := "C" }

/-- Period records of the Pareto boundary scenario: totals 800 and 200. -/
def vC3 : List Rec := [recC3a, recC3b]

/-- Record with product id P carrying product name X (share duplication
scenario). -/
def recC3xa : Rec :=
  { ventaId := "1", clienteId := "C1", productoId := "P", fecha := 5,
    valorVenta := 600, nombreProducto := "X", nombre := "N1",
    segmento := "S", ciudad := "C" }

/-- Record with the same product id P but product name Y (share duplication
scenario). -/
def recC3xb : Rec :=
  { ventaId := "2", clienteId := "C1", productoId := "P", fecha := 5,
    valorVenta := 400, nombreProducto := "Y", nombre := "N1",
    segmento := "S", ciudad := "C" }

/-- Record set in which one product id carries two product names. -/
def vC3x : List Rec := [recC3xa, recC3xb]

/-- Record whose city and segment lie outside every selection list used in
the comparative-asymmetry scenario. -/
def recC6 : Rec :=
  { ventaId := "1", clienteId := "A", productoId := "P1", fecha := 5,
    valorVenta := 100, nombreProducto := "NP1", nombre := "Ana",
    segmento := "SX", ciudad := "CX" }

/-- First record of the mixed-sign Pareto scenario: product P1 with total 2. -/
def recC7a : Rec :=
  { ventaId := "1", clienteId := "A", productoId := "P1", fecha := 5,
    valorVenta := 2, nombreProducto := "NP1", nombre := "Ana",
    segmento := "S", ciudad := "C" }

/-- Second record of the mixed-sign Pareto scenario: product P2 with total
minus 1. -/
def recC7b : Rec :=
  { ventaId := "2", clienteId := "B", productoId := "P2", fecha := 5,
    valorVenta := -1, nombreProducto := "NP2", nombre := "Bea",
    segmento := "S", ciudad := "C" }

/-- Record set with a negative product total and positive grand total. -/
def vC7 : List Rec := [recC7a, recC7b]

/-- First record of the zero-total Pareto scenario: product P1 with amount 1. -/
def recC10a : Rec :=
  { ventaId := "1", clienteId := "A", productoId := "P1", fecha := 5,
    valorVenta := 1, nombreProducto := "NP1", nombre := "Ana",
    segmento := "S", ciudad := "C" }

/-- Second record of the zero-total Pareto scenario: product P2 with amount
minus 1. -/
def recC10b : Rec :=
  { ventaId := "2", clienteId := "B", productoId := "P2", fecha := 5,
    valorVenta := -1, nombreProducto := "NP2", nombre := "Bea",
    segmento := "S", ciudad := "C" }

/-- Record set with nonzero amounts summing to zero. -/
def vC10 : List Rec := [recC10a, recC10b]

/-- Record whose amount is zero. -/
def recC10z : Rec :=
  { ventaId := "1", clienteId := "A", productoId := "P1", fecha := 5,
    valorVenta := 0, nombreProducto := "NP1", nombre := "Ana",
    segmento := "S", ciudad := "C" }

/-- Nonempty record set whose total offer revenue is zero with non-negative
amounts. -/
def vC10z : List Rec := [recC10z]

end App

namespace Load

/-- Sale line with every essential column present. -/
def ventaW1 : Venta :=
  { ventaId := some "V1", clienteId := some "C1", productoId := some "P1",
    negocioId := some "N1", fecha := some 5, valorVenta := 100 }

/-- Sale line whose date failed to parse. -/
def ventaW2 : Venta :=
  { ventaId := some "V2", clienteId := some "C2", productoId := some "P1",
    negocioId := some "N1", fecha := none, valorVenta := 50 }

/-- Sales table of the load scenarios: one clean line and one line with an
unparseable date. -/
def ventasW : List Venta := [ventaW1, ventaW2]

/-- Master row produced for the clean sale line when no dimension rows
match. -/
def masterW1 : MasterRec := mkMaster ventaW1 none none none

/-- Product row with id P1 and name X (duplicate-key scenario). -/
def productoD1 : Producto :=
  { productoId := some "P1", categoria := some "K", nombreProducto := some "X" }

/-- Second product row with the same id P1 and name Y (duplicate-key
scenario). -/
def productoD2 : Producto :=
  { productoId := some "P1", categoria := some "K", nombreProducto := some "Y" }

/-- Products table with a duplicated product id. -/
def productosD : List Producto := [productoD1, productoD2]

/-- Sales table with a single clean line referencing the duplicated product
id. -/
def ventasD : List Venta := [ventaW1]

end Load

namespace App

lemma trans_offer_vC1 : trans_offer vC1 = [tC1] := by
  simp [trans_offer, vC1, recC1a, recC1b, tC1, List.dedup, List.filter]
  norm_num

lemma qualifying_vC1 : qualifying_trans vC1 55000 = [tC1] := by
  unfold qualifying_trans
  rw [trans_offer_vC1]
  simp [tC1, List.filter]
  norm_num

lemma clientes_vC1 : clientes_qual_actual vC1 55000 = ["A"] := by
  unfold clientes_qual_actual
  rw [qualifying_vC1]
  simp [tC1, List.dedup]

/-- C1: a transaction (group of period records sharing a saleId, with
offerAmount the sum of their amounts) is qualifying iff its offerAmount is
at least minAmount, inclusively; on the two-line sale with amounts 40000 and
20000 and threshold 55000, the transaction totals 60000, qualifies, and the
qualifying customer set is exactly A. -/
theorem claim_C1 :
    (∀ (v : List Rec) (minAmount : ℚ) (t : TransRow),
        t ∈ qualifying_trans v minAmount ↔
          t ∈ trans_offer v ∧ minAmount ≤ t.ventaOferta) ∧
    (∀ (v : List Rec) (t : TransRow), t ∈ trans_offer v →
        t.ventaOferta =
          ((v.filter (fun r => decide (r.ventaId = t.ventaId))).map
            Rec.valorVenta).sum) ∧
    trans_offer vC1 = [tC1] ∧
    qualifying_trans vC1 55000 = [tC1] ∧
    clientes_qual_actual vC1 55000 = ["A"] := by
  refine ⟨?_, ?_, trans_offer_vC1, qualifying_vC1, clientes_vC1⟩
  · intro v minAmount t
    simp [qualifying_trans, List.mem_filter]
  · intro v t ht
    simp only [trans_offer, List.mem_map] at ht
    obtain ⟨vid, hvid, rfl⟩ := ht
    rfl

/-- C2: the retained (fidelizados) customer set is exactly the intersection
of the current-period qualifying customer set and the comparative-period
qualifying customer set. -/
theorem claim_C2 (m : List Rec) (startDate endDate : Int)
    (offer ciudades segmentos : List String) (minAmount : ℚ)
    (comparStart comparEnd : Int) (comparMin : ℚ) (c : String) :
    c ∈ fidelizados
          (clientes_qual_actual (v_period m startDate endDate offer ciudades segmentos) minAmount)
          (clientes_qual_previo (v_compar m comparStart comparEnd offer) comparMin) ↔
      c ∈ clientes_qual_actual (v_period m startDate endDate offer ciudades segmentos) minAmount ∧
      c ∈ clientes_qual_previo (v_compar m comparStart comparEnd offer) comparMin := by
  simp [fidelizados]

lemma venta_total_vC1 : venta_total vC1 = 60000 := by
  simp [venta_total, vC1, recC1a, recC1b]
  norm_num

lemma venta_compar_vC1 : venta_total (v_compar vC1 0 10 ["P1", "P2"]) = 60000 := by
  simp [v_compar, vC1, recC1a, recC1b, venta_total, List.filter]
  norm_num

/-- C4: when the comparative-period revenue total is zero the reported
variation is the sentinel and never a percentage; otherwise it is the signed
relative difference times 100. -/
theorem claim_C4 (vp m : List Rec) (comparStart comparEnd : Int)
    (offer : List String) :
    (venta_total (v_compar m comparStart comparEnd offer) = 0 →
        variacion (venta_total vp) (venta_total (v_compar m comparStart comparEnd offer)) =
          Variacion.na ∧
        ∀ q : ℚ,
          variacion (venta_total vp) (venta_total (v_compar m comparStart comparEnd offer)) ≠
            Variacion.pct q) ∧
    (venta_total (v_compar m comparStart comparEnd offer) ≠ 0 →
        variacion (venta_total vp) (venta_total (v_compar m comparStart comparEnd offer)) =
          Variacion.pct
            ((venta_total vp - venta_total (v_compar m comparStart comparEnd offer)) /
              venta_total (v_compar m comparStart comparEnd offer) * 100)) := by
  constructor
  · intro h
    simp [variacion, h]
  · intro h
    simp [variacion, h]

/-- Closed instance of claim C4: the empty comparative period yields the
sentinel, and a 60000-to-60000 comparison yields a zero percentage. -/
theorem claim_C4_witness :
    variacion (venta_total vC1) (venta_total (v_compar [] 0 1 ["P1"])) = Variacion.na ∧
    variacion (venta_total vC1) (venta_total (v_compar vC1 0 10 ["P1", "P2"])) =
      Variacion.pct 0 := by
  constructor
  · exact ((claim_C4 vC1 [] 0 1 ["P1"]).1 rfl).1
  · have h := (claim_C4 vC1 vC1 0 10 ["P1", "P2"]).2
      (by rw [venta_compar_vC1]; norm_num)
    rw [venta_compar_vC1, venta_total_vC1] at h
    rw [venta_total_vC1, venta_compar_vC1, h]
    norm_num

/-- C5: the qualifying transaction set is monotone in the threshold: a
transaction qualifying at the higher threshold also qualifies at the lower
one. -/
theorem claim_C5 (v : List Rec) (m1 m2 : ℚ) (h : m1 ≤ m2) (t : TransRow)
    (ht : t ∈ qualifying_trans v m2) : t ∈ qualifying_trans v m1 := by
  simp only [qualifying_trans, List.mem_filter, decide_eq_true_eq] at ht ⊢
  exact ⟨ht.1, le_trans h ht.2⟩

/-- Closed instance of claim C5: the 60000 transaction qualifying at 55000
also qualifies at 50000. -/
theorem claim_C5_witness : tC1 ∈ qualifying_trans vC1 50000 := by
  refine claim_C5 vC1 50000 55000 (by norm_num) tC1 ?_
  rw [qualifying_vC1]
  exact List.mem_singleton_self _

/-- C6: the comparative subset keeps exactly the master records inside the
comparative date range whose product is in the offer; the city and segment
selections of the main period are not applied to it, as the closed instance
with a record outside every city and segment selection shows. -/
theorem claim_C6 :
    (∀ (m : List Rec) (comparStart comparEnd : Int) (offer : List String) (r : Rec),
        r ∈ v_compar m comparStart comparEnd offer ↔
          r ∈ m ∧ comparStart ≤ r.fecha ∧ r.fecha ≤ comparEnd ∧
            r.productoId ∈ offer) ∧
    v_compar [recC6] 0 10 ["P1"] = [recC6] ∧
    v_period [recC6] 0 10 ["P1"] [] [] = [] := by
  refine ⟨?_, ?_, ?_⟩
  · intro m comparStart comparEnd offer r
    simp [v_compar, List.mem_filter]
  · simp [v_compar, recC6, List.filter]
  · simp [v_period, recC6, List.filter]

end App

lemma filter_length_le_one {β κ : Type} [DecidableEq κ] (f : β → κ) (r : List β)
    (h : (r.map f).Nodup) (x : κ) :
    (r.filter (fun b => decide (f b = x))).length ≤ 1 := by
  induction r with
  | nil => simp
  | cons b rs ih =>
    simp only [List.map_cons, List.nodup_cons, List.mem_map] at h
    by_cases hb : f b = x
    · have hnil : rs.filter (fun b2 => decide (f b2 = x)) = [] := by
        rw [List.filter_eq_nil_iff]
        intro a ha
        simp only [decide_eq_true_eq]
        intro hax
        exact h.1 ⟨a, ha, by rw [hax, hb]⟩
      simp [List.filter_cons, hb, hnil]
    · rw [List.filter_cons]
      have hd : decide (f b = x) = false := by simp [hb]
      rw [hd]
      simp only [Bool.false_eq_true, if_false]
      exact ih h.2

namespace Load

lemma leftJoin_eq_map {α β : Type} (l : List α) (r : List β) (matchRow : α → β → Bool)
    (h : ∀ a, (r.filter (matchRow a)).length ≤ 1) :
    leftJoin l r matchRow = l.map (fun a => (a, (r.filter (matchRow a)).head?)) := by
  induction l with
  | nil => rfl
  | cons a l ih =>
    have step : leftJoin (a :: l) r matchRow =
        (match r.filter (matchRow a) with
          | [] => [(a, none)]
          | bs => bs.map (fun b => (a, some b))) ++ leftJoin l r matchRow := by
      simp [leftJoin, List.flatMap_cons]
    rw [step, ih, List.map_cons]
    have hsing : (match r.filter (matchRow a) with
        | [] => [(a, (none : Option β))]
        | bs => bs.map (fun b => (a, some b))) = [(a, (r.filter (matchRow a)).head?)] := by
      cases hf : r.filter (matchRow a) with
      | nil => simp
      | cons b bs =>
        cases bs with
        | nil => simp
        | cons b2 bs2 =>
          exfalso
          have hlen := h a
          rw [hf] at hlen
          simp at hlen
    rw [hsing]
    rfl

end Load

namespace Load

theorem claim_C9 (ventas : List Venta) (productos : List Producto)
    (clientes : List Cliente) (negocios : List Negocio)
    (hp : (productos.map Producto.productoId).Nodup)
    (hc : (clientes.map Cliente.clienteId).Nodup)
    (hn : (negocios.map Negocio.negocioId).Nodup) :
    (load_and_model_data ventas productos clientes negocios).length =
      (ventas.filter (fun s => essentialsPresent s.fecha s.clienteId s.ventaId)).length := by
  simp only [load_and_model_data, df_maestro_raw]
  rw [leftJoin_eq_map ventas productos
      (fun s p => decide (p.productoId = s.productoId))
      (fun a => filter_length_le_one Producto.productoId productos hp a.productoId)]
  rw [leftJoin_eq_map _ clientes
      (fun (sp : Venta × Option Producto) (c : Cliente) =>
        decide (c.clienteId = sp.1.clienteId))
      (fun a => filter_length_le_one Cliente.clienteId clientes hc a.1.clienteId)]
  rw [leftJoin_eq_map _ negocios
      (fun (spc : (Venta × Option Producto) × Option Cliente) (n : Negocio) =>
        decide (n.negocioId = spc.1.1.negocioId))
      (fun a => filter_length_le_one Negocio.negocioId negocios hn a.1.1.negocioId)]
  rw [List.map_map, List.map_map, List.map_map, List.filter_map]
  rw [List.length_map]
  rfl

end Load

namespace Load

theorem claim_C8 (ventas : List Venta) (productos : List Producto)
    (clientes : List Cliente) (negocios : List Negocio) (r : MasterRec)
    (h : r ∈ load_and_model_data ventas productos clientes negocios) :
    r.fecha.isSome = true ∧ r.clienteId.isSome = true ∧ r.ventaId.isSome = true := by
  simp only [load_and_model_data, List.mem_filter, essentialsPresent,
    Bool.and_eq_true] at h
  exact ⟨h.2.1.1, h.2.1.2, h.2.2⟩

theorem claim_C8_witness :
    masterW1.fecha.isSome = true ∧ masterW1.clienteId.isSome = true ∧
      masterW1.ventaId.isSome = true :=
  claim_C8 ventasW [] [] [] masterW1 (by decide)

theorem claim_C9_witness :
    (load_and_model_data ventasW [productoD1] [] []).length =
      (ventasW.filter (fun s => essentialsPresent s.fecha s.clienteId s.ventaId)).length :=
  claim_C9 ventasW [productoD1] [] [] (by decide) (by decide) (by decide)

theorem claim_C9_counterexample :
    (load_and_model_data ventasD productosD [] []).length ≠
      (ventasD.filter (fun s => essentialsPresent s.fecha s.clienteId s.ventaId)).length := by
  decide

end Load

namespace App

lemma sum_ite_mem {κ : Type} [DecidableEq κ] (keys : List κ) (x : κ) (c : ℚ)
    (hnd : keys.Nodup) (hx : x ∈ keys) :
    (keys.map (fun k => if x = k then c else 0)).sum = c := by
  induction keys with
  | nil => cases hx
  | cons k ks ih =>
    simp only [List.nodup_cons] at hnd
    rcases List.mem_cons.1 hx with h | h
    · subst h
      have hz : (ks.map (fun k2 => if x = k2 then c else 0)).sum = 0 := by
        apply List.sum_eq_zero
        intro y hy
        obtain ⟨k2, hk2, rfl⟩ := List.mem_map.1 hy
        rw [if_neg]
        intro hxk
        exact hnd.1 (hxk ▸ hk2)
      simp [hz]
    · have hne : x ≠ k := by
        intro he
        exact hnd.1 (he ▸ h)
      simp [hne, ih hnd.2 h]

lemma sum_over_keys {α κ : Type} [DecidableEq κ] (key : α → κ) (val : α → ℚ)
    (l : List α) (keys : List κ) (hnd : keys.Nodup) (hcov : ∀ a ∈ l, key a ∈ keys) :
    (keys.map (fun k => ((l.filter (fun a => decide (key a = k))).map val).sum)).sum
      = (l.map val).sum := by
  induction l with
  | nil =>
    simp only [List.filter_nil, List.map_nil, List.sum_nil]
    apply List.sum_eq_zero
    intro y hy
    obtain ⟨k, hk, rfl⟩ := List.mem_map.1 hy
    rfl
  | cons a l ih =>
    have hstep : ∀ k : κ,
        (((a :: l).filter (fun a2 => decide (key a2 = k))).map val).sum =
          (if key a = k then val a else 0) +
            ((l.filter (fun a2 => decide (key a2 = k))).map val).sum := by
      intro k
      by_cases hk : key a = k
      · simp [List.filter_cons, hk]
      · simp [List.filter_cons, hk]
    have hmap : keys.map (fun k =>
          (((a :: l).filter (fun a2 => decide (key a2 = k))).map val).sum) =
        keys.map (fun k => (if key a = k then val a else 0) +
          ((l.filter (fun a2 => decide (key a2 = k))).map val).sum) := by
      apply List.map_congr_left
      intro k _
      exact hstep k
    rw [hmap, List.sum_map_add, ih (fun a2 ha2 => hcov a2 (List.mem_cons_of_mem a ha2)),
      sum_ite_mem keys (key a) (val a) hnd (hcov a (List.mem_cons_self a l))]
    simp

lemma groupSumBy_sum {α κ : Type} [DecidableEq κ] (key : α → κ) (val : α → ℚ)
    (l : List α) :
    ((groupSumBy key val l).map Prod.snd).sum = (l.map val).sum := by
  unfold groupSumBy
  rw [List.map_map]
  exact sum_over_keys key val l ((l.map key).dedup) (List.nodup_dedup _)
    (fun a ha => List.mem_dedup.2 (List.mem_map_of_mem key ha))

end App

namespace App

lemma groupSumBy_mem {α κ : Type} [DecidableEq κ] {key : α → κ} {val : α → ℚ}
    {l : List α} {p : κ × ℚ} (hp : p ∈ groupSumBy key val l) :
    p.1 ∈ (l.map key).dedup ∧
      p.2 = ((l.filter (fun a => decide (key a = p.1))).map val).sum := by
  obtain ⟨k, hk, rfl⟩ := List.mem_map.1 hp
  exact ⟨hk, rfl⟩

lemma groupSumBy_nonneg {α κ : Type} [DecidableEq κ] {key : α → κ} {val : α → ℚ}
    {l : List α} (hv : ∀ a ∈ l, 0 ≤ val a) {p : κ × ℚ}
    (hp : p ∈ groupSumBy key val l) : 0 ≤ p.2 := by
  rw [(groupSumBy_mem hp).2]
  apply List.sum_nonneg
  intro x hx
  obtain ⟨a, ha, rfl⟩ := List.mem_map.1 hx
  exact hv a (List.mem_filter.1 ha).1

lemma groupSumBy_keys_nodup {α κ : Type} [DecidableEq κ] (key : α → κ) (val : α → ℚ)
    (l : List α) : ((groupSumBy key val l).map Prod.fst).Nodup := by
  unfold groupSumBy
  rw [List.map_map]
  have he : (Prod.fst ∘ fun k : κ =>
      (k, ((l.filter (fun a => decide (key a = k))).map val).sum)) = id := rfl
  rw [he, List.map_id]
  exact List.nodup_dedup _

lemma groupSumBy_exists_key {α κ : Type} [DecidableEq κ] (key : α → κ) (val : α → ℚ)
    {l : List α} {a : α} (ha : a ∈ l) :
    ∃ p ∈ groupSumBy key val l, p.1 = key a := by
  refine ⟨(key a, ((l.filter (fun a2 => decide (key a2 = key a))).map val).sum), ?_, rfl⟩
  exact List.mem_map_of_mem _ (List.mem_dedup.2 (List.mem_map_of_mem key ha))

lemma groupSumBy_ne_nil {α κ : Type} [DecidableEq κ] (key : α → κ) (val : α → ℚ)
    {l : List α} (h : l ≠ []) : groupSumBy key val l ≠ [] := by
  unfold groupSumBy
  simp [List.map_eq_nil_iff, List.dedup_eq_nil, h]

lemma groupSumBy_key_source {α κ : Type} [DecidableEq κ] {key : α → κ} {val : α → ℚ}
    {l : List α} {p : κ × ℚ} (hp : p ∈ groupSumBy key val l) :
    ∃ a ∈ l, key a = p.1 := by
  have := (groupSumBy_mem hp).1
  rw [List.mem_dedup] at this
  exact List.mem_map.1 this

lemma insertDesc_perm {κ : Type} (x : κ × ℚ) (l : List (κ × ℚ)) :
    (insertDesc x l).Perm (x :: l) := by
  induction l with
  | nil => exact List.Perm.refl _
  | cons y ys ih =>
    unfold insertDesc
    by_cases h : y.2 < x.2
    · simp only [if_pos h]
      exact List.Perm.refl _
    · simp only [if_neg h]
      exact (ih.cons y).trans (List.Perm.swap x y ys)

lemma sortDesc_perm {κ : Type} (l : List (κ × ℚ)) : (sortDesc l).Perm l := by
  induction l with
  | nil => exact List.Perm.refl _
  | cons x xs ih =>
    unfold sortDesc
    exact (insertDesc_perm x (sortDesc xs)).trans (ih.cons x)

lemma cumsumAux_length (acc : ℚ) (l : List ℚ) :
    (cumsumAux acc l).length = l.length := by
  induction l generalizing acc with
  | nil => rfl
  | cons x xs ih =>
    unfold cumsumAux
    simp [ih]

lemma cumsumAux_chain (acc : ℚ) (l : List ℚ) (h : ∀ x ∈ l, 0 ≤ x) :
    List.Chain' (· ≤ ·) (cumsumAux acc l) := by
  induction l generalizing acc with
  | nil => exact List.chain'_nil
  | cons x xs ih =>
    unfold cumsumAux
    rw [List.chain'_cons']
    constructor
    · intro y hy
      cases xs with
      | nil => cases hy
      | cons z zs =>
        unfold cumsumAux at hy
        simp only [List.head?_cons, Option.mem_def, Option.some.injEq] at hy
        subst hy
        have hz : 0 ≤ z := h z (by simp)
        linarith
    · exact ih (acc + x) (fun y hy => h y (List.mem_cons_of_mem x hy))

lemma cumsumAux_getLast (acc : ℚ) (l : List ℚ) (h : l ≠ []) :
    (cumsumAux acc l).getLast? = some (acc + l.sum) := by
  induction l generalizing acc with
  | nil => exact absurd rfl h
  | cons x xs ih =>
    unfold cumsumAux
    cases xs with
    | nil => simp [cumsumAux]
    | cons z zs =>
      have hc : cumsumAux (acc + x) (z :: zs) =
          (acc + x + z) :: cumsumAux (acc + x + z) zs := rfl
      rw [hc, List.getLast?_cons_cons, ← hc, ih (acc + x) (by simp)]
      congr 1
      simp only [List.sum_cons]
      ring

lemma cumsumAux_const (acc : ℚ) (l : List ℚ) (h : ∀ x ∈ l, x = 0) :
    ∀ c ∈ cumsumAux acc l, c = acc := by
  induction l generalizing acc with
  | nil => intro c hc; cases hc
  | cons x xs ih =>
    intro c hc
    unfold cumsumAux at hc
    have hx : x = 0 := h x (by simp)
    rcases List.mem_cons.1 hc with h1 | h1
    · rw [h1, hx, add_zero]
    · have := ih (acc + x) (fun y hy => h y (List.mem_cons_of_mem x hy)) c h1
      rw [this, hx, add_zero]

end App

namespace App

lemma pareto_detalle_sum (v : List Rec) :
    ((pareto_detalle v).map Prod.snd).sum = venta_total v := by
  unfold pareto_detalle venta_total
  rw [((sortDesc_perm (groupSumBy detKey Rec.valorVenta v)).map Prod.snd).sum_eq]
  exact groupSumBy_sum detKey Rec.valorVenta v

lemma pareto_productos_sum (v : List Rec) :
    ((pareto_productos v).map Prod.snd).sum = venta_total v := by
  unfold pareto_productos
  rw [((sortDesc_perm _).map Prod.snd).sum_eq, groupSumBy_sum]
  exact pareto_detalle_sum v

lemma pareto_detalle_nonneg (v : List Rec) (hv : ∀ r ∈ v, 0 ≤ r.valorVenta) :
    ∀ p ∈ pareto_detalle v, 0 ≤ p.2 := by
  intro p hp
  unfold pareto_detalle at hp
  rw [(sortDesc_perm _).mem_iff] at hp
  exact groupSumBy_nonneg hv hp

lemma pareto_productos_nonneg (v : List Rec) (hv : ∀ r ∈ v, 0 ≤ r.valorVenta) :
    ∀ p ∈ pareto_productos v, 0 ≤ p.2 := by
  intro p hp
  unfold pareto_productos at hp
  rw [(sortDesc_perm _).mem_iff] at hp
  exact groupSumBy_nonneg (pareto_detalle_nonneg v hv) hp

lemma sortDesc_eq_nil_iff {κ : Type} (l : List (κ × ℚ)) :
    sortDesc l = [] ↔ l = [] := by
  constructor
  · intro h
    have hl := (sortDesc_perm l).length_eq
    rw [h] at hl
    exact List.length_eq_zero.1 hl.symm
  · intro h
    rw [h]
    rfl

lemma pareto_detalle_ne_nil (v : List Rec) (h : v ≠ []) : pareto_detalle v ≠ [] := by
  unfold pareto_detalle
  rw [Ne, sortDesc_eq_nil_iff]
  exact groupSumBy_ne_nil detKey Rec.valorVenta h

lemma pareto_productos_ne_nil (v : List Rec) (h : v ≠ []) : pareto_productos v ≠ [] := by
  unfold pareto_productos
  rw [Ne, sortDesc_eq_nil_iff]
  exact groupSumBy_ne_nil _ _ (pareto_detalle_ne_nil v h)

/-- C7 (amended): for a non-empty record set with non-negative amounts and
positive total revenue, the cumulative share column is a non-decreasing
sequence of rationals whose last value is exactly 1. -/
theorem claim_C7 (v : List Rec) (hne : v ≠ [])
    (hnn : ∀ r ∈ v, 0 ≤ r.valorVenta) (hpos : 0 < venta_total v) :
    ∃ qs : List ℚ, acumulado_col v = qs.map PShare.val ∧
      List.Chain' (· ≤ ·) qs ∧ qs.getLast? = some 1 := by
  have htot : ((pareto_productos v).map Prod.snd).sum = venta_total v :=
    pareto_productos_sum v
  have htpos : 0 < ((pareto_productos v).map Prod.snd).sum := by
    rw [htot]; exact hpos
  have htne : ((pareto_productos v).map Prod.snd).sum ≠ 0 := ne_of_gt htpos
  have hvnn : ∀ x ∈ (pareto_productos v).map Prod.snd, 0 ≤ x := by
    intro x hx
    obtain ⟨p, hp, rfl⟩ := List.mem_map.1 hx
    exact pareto_productos_nonneg v hnn p hp
  have hvne : (pareto_productos v).map Prod.snd ≠ [] := by
    rw [Ne, List.map_eq_nil_iff]
    exact pareto_productos_ne_nil v hne
  refine ⟨(cumsum ((pareto_productos v).map Prod.snd)).map
      (fun c => c / ((pareto_productos v).map Prod.snd).sum), ?_, ?_, ?_⟩
  · unfold acumulado_col
    rw [List.map_map]
    apply List.map_congr_left
    intro c hc
    simp only [Function.comp_apply, qdivF, if_neg htne]
  · rw [List.chain'_map]
    apply List.Chain'.imp ?_ (cumsumAux_chain 0 _ hvnn)
    intro a b hab
    gcongr
  · rw [List.getLast?_map, cumsum, cumsumAux_getLast 0 _ hvne]
    simp [div_self htne]

end App

namespace App

/-- Closed instance of amended claim C7 at the 800/200 scenario. -/
theorem claim_C7_witness :
    ∃ qs : List ℚ, acumulado_col vC3 = qs.map PShare.val ∧
      List.Chain' (· ≤ ·) qs ∧ qs.getLast? = some 1 := by
  refine claim_C7 vC3 (by simp [vC3]) ?_ ?_
  · intro r hr
    rcases List.mem_cons.1 hr with rfl | hr
    · norm_num [recC3a]
    · rcases List.mem_cons.1 hr with rfl | hr
      · norm_num [recC3b]
      · cases hr
  · simp [venta_total, vC3, recC3a, recC3b]
    norm_num

lemma detC7 : pareto_detalle vC7 =
    [(("P1", "NP1", "A", "Ana"), 2), (("P2", "NP2", "B", "Bea"), -1)] := by
  simp [pareto_detalle, groupSumBy, detKey, sortDesc, insertDesc, vC7,
    recC7a, recC7b, List.dedup, List.filter]
  norm_num

lemma prodC7 : pareto_productos vC7 = [(("P1", "NP1"), 2), (("P2", "NP2"), -1)] := by
  simp [pareto_productos, detC7, groupSumBy, sortDesc, insertDesc,
    List.dedup, List.filter]
  norm_num

lemma acumC7 : acumulado_col vC7 = [PShare.val 2, PShare.val 1] := by
  simp [acumulado_col, prodC7, cumsum, cumsumAux, qdivF]
  norm_num

/-- Refutation of claim C7 as stated: a non-empty record set (with a negative
product total) whose cumulative share sequence is decreasing. -/
theorem claim_C7_counterexample :
    vC7 ≠ [] ∧
    ¬ ∃ qs : List ℚ, acumulado_col vC7 = qs.map PShare.val ∧
        List.Chain' (· ≤ ·) qs ∧ qs.getLast? = some 1 := by
  refine ⟨by simp [vC7], ?_⟩
  rintro ⟨qs, heq, hch, -⟩
  rw [acumC7] at heq
  cases qs with
  | nil => simp at heq
  | cons a t =>
    cases t with
    | nil => simp at heq
    | cons b t2 =>
      cases t2 with
      | cons c t3 => simp at heq
      | nil =>
        simp only [List.map_cons, List.map_nil] at heq
        injection heq with h1 h2
        injection h2 with h2 h3
        injection h1 with ha
        injection h2 with hb
        rw [List.chain'_cons] at hch
        rw [← ha, ← hb] at hch
        exact absurd hch.1 (by norm_num)

end App

namespace App

lemma all_zero_of_sum_zero (l : List ℚ) (hn : ∀ x ∈ l, 0 ≤ x) (hs : l.sum = 0) :
    ∀ x ∈ l, x = 0 := by
  induction l with
  | nil => simp
  | cons x xs ih =>
    simp only [List.sum_cons] at hs
    have hx : 0 ≤ x := hn x (by simp)
    have hxs : 0 ≤ xs.sum :=
      List.sum_nonneg (fun y hy => hn y (List.mem_cons_of_mem x hy))
    have hx0 : x = 0 := by linarith
    intro y hy
    rcases List.mem_cons.1 hy with rfl | hy
    · exact hx0
    · exact ih (fun z hz => hn z (List.mem_cons_of_mem x hz)) (by linarith) y hy

lemma pareto_prod_acum_share_mem {v : List Rec} {p : String × PShare}
    (hp : p ∈ pareto_prod_acum v) : p.2 ∈ acumulado_col v := by
  unfold pareto_prod_acum at hp
  obtain ⟨pr, hpr, rfl⟩ := List.mem_map.1 hp
  exact (List.of_mem_zip hpr).2

lemma pareto_df_share (v : List Rec)
    (row : (String × String × String × String) × ℚ × PShare)
    (hrow : row ∈ pareto_df v) :
    row.2.2 = PShare.nan ∨ ∃ p ∈ pareto_prod_acum v, row.2.2 = p.2 := by
  unfold pareto_df at hrow
  simp only [List.mem_flatMap] at hrow
  obtain ⟨d, hd, hrow⟩ := hrow
  cases hf : (pareto_prod_acum v).filter (fun p => decide (p.1 = d.1.1)) with
  | nil =>
    rw [hf] at hrow
    simp only [List.mem_singleton] at hrow
    rw [hrow]
    left
    rfl
  | cons p ps =>
    rw [hf] at hrow
    simp only [List.mem_map] at hrow
    obtain ⟨p2, hp2, rfl⟩ := hrow
    right
    refine ⟨p2, ?_, rfl⟩
    have hmem : p2 ∈ (pareto_prod_acum v).filter (fun p => decide (p.1 = d.1.1)) := by
      rw [hf]
      exact hp2
    exact (List.mem_filter.1 hmem).1

/-- C10 (amended): when the filtered set is empty, or its total offer revenue
is zero with non-negative amounts, the unguarded division renders every
product share NaN and the 80 percent cutoff table is empty; no error arises,
the computation is total. -/
theorem claim_C10 (v : List Rec)
    (h : v = [] ∨ (venta_total v = 0 ∧ ∀ r ∈ v, 0 ≤ r.valorVenta)) :
    (∀ s ∈ acumulado_col v, s = PShare.nan) ∧ pareto_display v = [] := by
  have hshares : ∀ s ∈ acumulado_col v, s = PShare.nan := by
    rcases h with rfl | ⟨h0, hnn⟩
    · intro s hs
      cases hs
    · have hsum : ((pareto_productos v).map Prod.snd).sum = 0 := by
        rw [pareto_productos_sum]
        exact h0
      have hvnn : ∀ x ∈ (pareto_productos v).map Prod.snd, 0 ≤ x := by
        intro x hx
        obtain ⟨p, hp, rfl⟩ := List.mem_map.1 hx
        exact pareto_productos_nonneg v hnn p hp
      have hall0 : ∀ x ∈ (pareto_productos v).map Prod.snd, x = 0 :=
        all_zero_of_sum_zero _ hvnn hsum
      intro s hs
      unfold acumulado_col at hs
      simp only [List.mem_map] at hs
      obtain ⟨c, hc, rfl⟩ := hs
      have hc0 : c = 0 := cumsumAux_const 0 _ hall0 c hc
      rw [hc0, hsum]
      simp [qdivF]
  refine ⟨hshares, ?_⟩
  unfold pareto_display
  rw [List.filter_eq_nil_iff]
  intro row hrow
  rcases pareto_df_share v row hrow with hnr | ⟨p, hp, hsh⟩
  · rw [hnr]
    simp [leq08]
  · rw [hsh, hshares p.2 (pareto_prod_acum_share_mem hp)]
    simp [leq08]

/-- Closed instance of amended claim C10 at a one-record set with amount
zero. -/
theorem claim_C10_witness :
    (∀ s ∈ acumulado_col vC10z, s = PShare.nan) ∧ pareto_display vC10z = [] :=
  claim_C10 vC10z (Or.inr ⟨by simp [venta_total, vC10z, recC10z],
    by intro r hr; simp [vC10z] at hr; rw [hr]; norm_num [recC10z]⟩)

lemma detC10 : pareto_detalle vC10 =
    [(("P1", "NP1", "A", "Ana"), 1), (("P2", "NP2", "B", "Bea"), -1)] := by
  simp [pareto_detalle, groupSumBy, detKey, sortDesc, insertDesc, vC10,
    recC10a, recC10b, List.dedup, List.filter]

lemma prodC10 : pareto_productos vC10 = [(("P1", "NP1"), 1), (("P2", "NP2"), -1)] := by
  simp [pareto_productos, detC10, groupSumBy, sortDesc, insertDesc,
    List.dedup, List.filter]

lemma acumC10 : acumulado_col vC10 = [PShare.pinf, PShare.nan] := by
  simp [acumulado_col, prodC10, cumsum, cumsumAux, qdivF]

/-- Refutation of claim C10 as stated: amounts 1 and minus 1 give total zero,
yet the first product share is plus infinity rather than NaN. -/
theorem claim_C10_counterexample :
    venta_total vC10 = 0 ∧ ¬ (∀ s ∈ acumulado_col vC10, s = PShare.nan) := by
  constructor
  · simp [venta_total, vC10, recC10a, recC10b]
  · intro hall
    have hmem : PShare.pinf ∈ acumulado_col vC10 := by
      rw [acumC10]
      simp
    have := hall PShare.pinf hmem
    simp at this

end App

namespace App

lemma pareto_detalle_key_source {v : List Rec}
    {d : (String × String × String × String) × ℚ} (hd : d ∈ pareto_detalle v) :
    ∃ r ∈ v, detKey r = d.1 := by
  unfold pareto_detalle at hd
  rw [(sortDesc_perm _).mem_iff] at hd
  exact groupSumBy_key_source hd

lemma pareto_detalle_name_cons {v : List Rec} (hcons : nombreConsistente v) :
    ∀ d ∈ pareto_detalle v, ∀ d' ∈ pareto_detalle v,
      d.1.1 = d'.1.1 → d.1.2.1 = d'.1.2.1 := by
  intro d hd d' hd' hpid
  obtain ⟨r, hr, hkr⟩ := pareto_detalle_key_source hd
  obtain ⟨r', hr', hkr'⟩ := pareto_detalle_key_source hd'
  have h1 : r.productoId = d.1.1 := by rw [← hkr]; rfl
  have h2 : r.nombreProducto = d.1.2.1 := by rw [← hkr]; rfl
  have h1' : r'.productoId = d'.1.1 := by rw [← hkr']; rfl
  have h2' : r'.nombreProducto = d'.1.2.1 := by rw [← hkr']; rfl
  rw [← h2, ← h2']
  exact hcons r hr r' hr' (by rw [h1, h1', hpid])

lemma pareto_productos_pid_nodup (v : List Rec) (hcons : nombreConsistente v) :
    ((pareto_productos v).map (fun p => p.1.1)).Nodup := by
  unfold pareto_productos
  have hperm := (sortDesc_perm (groupSumBy
      (fun d : (String × String × String × String) × ℚ => (d.1.1, d.1.2.1))
      Prod.snd (pareto_detalle v))).map
      (fun p : (String × String) × ℚ => p.1.1)
  rw [hperm.nodup_iff]
  unfold groupSumBy
  rw [List.map_map]
  have he : ((fun p : (String × String) × ℚ => p.1.1) ∘ fun k : String × String =>
      (k, (((pareto_detalle v).filter
        (fun a => decide ((a.1.1, a.1.2.1) = k))).map Prod.snd).sum)) =
      (fun k : String × String => k.1) := rfl
  rw [he]
  apply List.Nodup.map_on ?_ (List.nodup_dedup _)
  intro x hx y hy hxy
  rw [List.mem_dedup] at hx hy
  obtain ⟨d, hd, rfl⟩ := List.mem_map.1 hx
  obtain ⟨d', hd', rfl⟩ := List.mem_map.1 hy
  have hn := pareto_detalle_name_cons hcons d hd d' hd' hxy
  rw [Prod.mk.injEq]
  exact ⟨hxy, hn⟩

lemma acumulado_col_length (v : List Rec) :
    (acumulado_col v).length = (pareto_productos v).length := by
  unfold acumulado_col cumsum
  simp [cumsumAux_length]

lemma pareto_prod_acum_fst (v : List Rec) :
    (pareto_prod_acum v).map Prod.fst =
      (pareto_productos v).map (fun p => p.1.1) := by
  unfold pareto_prod_acum
  rw [List.map_map]
  have he : (Prod.fst ∘ fun p : ((String × String) × ℚ) × PShare =>
      (p.1.1.1, p.2)) =
      ((fun q : (String × String) × ℚ => q.1.1) ∘ Prod.fst) := rfl
  rw [he, ← List.map_map, List.map_fst_zip]
  exact le_of_eq (acumulado_col_length v).symm

lemma pareto_prod_acum_pid_nodup (v : List Rec) (hcons : nombreConsistente v) :
    ((pareto_prod_acum v).map Prod.fst).Nodup := by
  rw [pareto_prod_acum_fst]
  exact pareto_productos_pid_nodup v hcons

lemma pareto_detalle_pid_present (v : List Rec)
    {d : (String × String × String × String) × ℚ} (hd : d ∈ pareto_detalle v) :
    d.1.1 ∈ (pareto_prod_acum v).map Prod.fst := by
  rw [pareto_prod_acum_fst]
  have hd2 : d ∈ groupSumBy detKey Rec.valorVenta v := by
    unfold pareto_detalle at hd
    rw [(sortDesc_perm _).mem_iff] at hd
    exact hd
  have hdet : d ∈ pareto_detalle v := hd
  obtain ⟨p, hp, hp1⟩ := groupSumBy_exists_key
    (fun d2 : (String × String × String × String) × ℚ => (d2.1.1, d2.1.2.1))
    Prod.snd hdet
  have hps : p ∈ pareto_productos v := by
    unfold pareto_productos
    rw [(sortDesc_perm _).mem_iff]
    exact hp
  refine List.mem_map.2 ⟨p, hps, ?_⟩
  rw [hp1]

lemma filter_fst_singleton {γ : Type} (l : List (String × γ)) (x : String)
    (hnd : (l.map Prod.fst).Nodup) (hx : x ∈ l.map Prod.fst) :
    ∃ p, l.filter (fun q => decide (q.1 = x)) = [p] ∧ p.1 = x ∧ p ∈ l := by
  obtain ⟨p, hp, hp1⟩ := List.mem_map.1 hx
  have hpmem : p ∈ l.filter (fun q => decide (q.1 = x)) :=
    List.mem_filter.2 ⟨hp, by simp [hp1]⟩
  have hlen : (l.filter (fun q => decide (q.1 = x))).length ≤ 1 :=
    filter_length_le_one Prod.fst l hnd x
  cases hf : l.filter (fun q => decide (q.1 = x)) with
  | nil =>
    rw [hf] at hpmem
    cases hpmem
  | cons p0 tail =>
    rw [hf] at hlen
    cases tail with
    | cons p1 t2 => simp at hlen
    | nil =>
      refine ⟨p0, rfl, ?_, ?_⟩
      · have := List.mem_filter.1 (hf ▸ List.mem_singleton_self p0)
        exact of_decide_eq_true this.2
      · exact (List.mem_filter.1 (hf ▸ List.mem_singleton_self p0)).1

lemma map_eq_flatMap_singleton {α β : Type} (l : List α) (f : α → β) :
    l.map f = l.flatMap (fun a => [f a]) := by
  induction l with
  | nil => rfl
  | cons a t ih => simp [List.flatMap_cons, ih]

lemma pareto_df_eq (v : List Rec) (hcons : nombreConsistente v) :
    pareto_df v =
      (pareto_detalle v).map (fun d => (d.1, d.2, prodShare v d.1.1)) := by
  unfold pareto_df
  rw [map_eq_flatMap_singleton]
  apply List.flatMap_congr
  intro d hd
  obtain ⟨p, hfp, hp1, hpl⟩ := filter_fst_singleton (pareto_prod_acum v) d.1.1
    (pareto_prod_acum_pid_nodup v hcons) (pareto_detalle_pid_present v hd)
  have hps : prodShare v d.1.1 = p.2 := by
    unfold prodShare
    rw [hfp]
  rw [hfp, hps]
  rfl

end App

namespace App

/-- C3 (amended): provided each product id carries a single product name, the
merge attaches to every detail row exactly the cumulative share of its
product, and the 80 percent cutoff table holds exactly the detail rows whose
product share passes the 0.8 comparison. -/
theorem claim_C3 (v : List Rec) (hcons : nombreConsistente v) :
    pareto_df v =
      (pareto_detalle v).map (fun d => (d.1, d.2, prodShare v d.1.1)) ∧
    ∀ (k : String × String × String × String) (q : ℚ) (s : PShare),
      (k, q, s) ∈ pareto_display v ↔
        (k, q) ∈ pareto_detalle v ∧ s = prodShare v k.1 ∧ leq08 s = true := by
  have hdf := pareto_df_eq v hcons
  refine ⟨hdf, ?_⟩
  intro k q s
  unfold pareto_display
  rw [hdf, List.mem_filter]
  simp only [List.mem_map]
  constructor
  · rintro ⟨⟨d, hd, heq⟩, hle⟩
    simp only [Prod.mk.injEq] at heq
    obtain ⟨h1, h2, h3⟩ := heq
    refine ⟨?_, ?_, hle⟩
    · rw [← h1, ← h2]
      rw [show (d.1, d.2) = d from rfl]
      exact hd
    · rw [← h3, ← h1]
  · rintro ⟨hdq, rfl, hle⟩
    exact ⟨⟨(k, q), hdq, rfl⟩, hle⟩

lemma detC3 : pareto_detalle vC3 =
    [(("P1", "NP1", "A", "Ana"), 800), (("P2", "NP2", "B", "Bea"), 200)] := by
  simp [pareto_detalle, groupSumBy, detKey, sortDesc, insertDesc, vC3,
    recC3a, recC3b, List.dedup, List.filter]
  norm_num

lemma prodC3 : pareto_productos vC3 =
    [(("P1", "NP1"), 800), (("P2", "NP2"), 200)] := by
  simp [pareto_productos, detC3, groupSumBy, sortDesc, insertDesc,
    List.dedup, List.filter]
  norm_num

lemma acumC3 : acumulado_col vC3 = [PShare.val (4/5), PShare.val 1] := by
  simp [acumulado_col, prodC3, cumsum, cumsumAux, qdivF]
  norm_num

lemma prodAcumC3 : pareto_prod_acum vC3 =
    [("P1", PShare.val (4/5)), ("P2", PShare.val 1)] := by
  simp [pareto_prod_acum, prodC3, acumC3]

lemma dfC3 : pareto_df vC3 =
    [(("P1", "NP1", "A", "Ana"), 800, PShare.val (4/5)),
     (("P2", "NP2", "B", "Bea"), 200, PShare.val 1)] := by
  simp [pareto_df, detC3, prodAcumC3, List.filter]

lemma displayC3 : pareto_display vC3 =
    [(("P1", "NP1", "A", "Ana"), 800, PShare.val (4/5))] := by
  simp [pareto_display, dfC3, leq08, List.filter]
  norm_num

/-- Closed instance of amended claim C3 at the 800/200 scenario: the merge
attaches per-product shares and the cutoff keeps only the first product
detail row, whose share is exactly 0.8. -/
theorem claim_C3_witness :
    pareto_df vC3 =
      (pareto_detalle vC3).map (fun d => (d.1, d.2, prodShare vC3 d.1.1)) ∧
    pareto_display vC3 =
      [(("P1", "NP1", "A", "Ana"), 800, PShare.val (4/5))] := by
  have hcons : nombreConsistente vC3 := by
    intro r hr r' hr' hpid
    rcases List.mem_cons.1 hr with rfl | hr <;>
      rcases List.mem_cons.1 hr' with h' | h' <;>
        simp_all [vC3, recC3a, recC3b]
  exact ⟨(claim_C3 vC3 hcons).1, displayC3⟩

lemma detC3x : pareto_detalle vC3x =
    [(("P", "X", "C1", "N1"), 600), (("P", "Y", "C1", "N1"), 400)] := by
  simp [pareto_detalle, groupSumBy, detKey, sortDesc, insertDesc, vC3x,
    recC3xa, recC3xb, List.dedup, List.filter]
  norm_num

lemma prodC3x : pareto_productos vC3x = [(("P", "X"), 600), (("P", "Y"), 400)] := by
  simp [pareto_productos, detC3x, groupSumBy, sortDesc, insertDesc,
    List.dedup, List.filter]
  norm_num

lemma acumC3x : acumulado_col vC3x = [PShare.val (3/5), PShare.val 1] := by
  simp [acumulado_col, prodC3x, cumsum, cumsumAux, qdivF]
  norm_num

lemma prodAcumC3x : pareto_prod_acum vC3x =
    [("P", PShare.val (3/5)), ("P", PShare.val 1)] := by
  simp [pareto_prod_acum, prodC3x, acumC3x]

lemma dfC3x : pareto_df vC3x =
    [(("P", "X", "C1", "N1"), 600, PShare.val (3/5)),
     (("P", "X", "C1", "N1"), 600, PShare.val 1),
     (("P", "Y", "C1", "N1"), 400, PShare.val (3/5)),
     (("P", "Y", "C1", "N1"), 400, PShare.val 1)] := by
  simp [pareto_df, detC3x, prodAcumC3x, List.filter]

lemma displayC3x : pareto_display vC3x =
    [(("P", "X", "C1", "N1"), 600, PShare.val (3/5)),
     (("P", "Y", "C1", "N1"), 400, PShare.val (3/5))] := by
  simp [pareto_display, dfC3x, leq08, List.filter]
  norm_num

/-- Refutation of claim C3 as stated: when one product id carries two product
names, the merge on ProductoID duplicates shares, so the same detail row
carries two distinct cumulative shares, and it sits in the cutoff with the
smaller one. -/
theorem claim_C3_counterexample :
    (("P", "Y", "C1", "N1"), (400 : ℚ), PShare.val (3/5)) ∈ pareto_display vC3x ∧
    (("P", "Y", "C1", "N1"), (400 : ℚ), PShare.val 1) ∈ pareto_df vC3x ∧
    PShare.val (3/5) ≠ PShare.val 1 := by
  refine ⟨?_, ?_, ?_⟩
  · rw [displayC3x]
    simp
  · rw [dfC3x]
    simp
  · simp only [Ne, PShare.val.injEq]
    norm_num

end App
